import Mathlib

/-!
Shallow embedding of `internal/tracer/gas_tracer.go` from devlongs/evm-tracer.

Modelling conventions:
* `uint64` values are `Nat` with `% UINT64` applied exactly where Go's
  64-bit arithmetic can wrap (additions, multiplications).
* Go's `int` call-depth field is modelled by `Int`; Go ints wrap at ±2^63,
  far outside every value reached in the theorems below.
* Go maps (`map[common.Hash]int`, `map[string]uint64`) are association
  lists with distinct keys; `mapGet m k d` is the Go map read with zero
  value `d`, `mapSet` is the map write (replace an existing key or append
  a new one).  `len(map)` is the list length.
* `common.Hash` storage keys are `Nat` (the injective image of the 32-byte
  value); `Hash.Hex()` / `Address.Hex()` renderings are kept abstract as
  the injective `Scalar.hex` constructor.
* geth's `Stack.Back(n)` is the event's operand list `stack.get? n`
  (top of stack first); a missing operand is `none`, matching the Go
  code's `nil` checks.
* `float64` appears only as the `percentage` detail value computed by
  `float64(gasUsed) / float64(totalGasUsed) * 100`.  `GoFloat` models it:
  dividing a positive value by zero is exactly `+Inf` and `0/0` is `NaN`
  in IEEE-754; a finite quotient is idealised as an exact rational
  (no theorem below depends on float rounding).
* `encoding/json` marshalling of a `map[string]interface{}` emits the
  keys in ascending (byte-lexicographic) order and fails on a
  non-finite `float64`; `getReport` models exactly those two behaviours.
* The spec's "TxEnd" event is the code's `CaptureEnd` callback (the one
  that overwrites `TotalGasUsed` and runs `analyzePatterns`); the Go
  `CaptureTxEnd` method is an empty body.
* Go map iteration order is unspecified; `analyzePatternsWith` takes the
  iteration sequence of `GasPerOpcode` as an explicit argument, and the
  canonical `analyzePatterns` instantiates it with the stored
  (insertion) order.
-/

namespace EvmTracer

/-- 2^64, the modulus of Go's `uint64` arithmetic. -/
def UINT64 : Nat := 2 ^ 64

/-- 2^160, the modulus of a 20-byte `common.Address`
(`common.BytesToAddress` keeps the low 20 bytes). -/
def ADDR : Nat := 2 ^ 160

/-- Go map read with default (zero value) `d`. -/
def mapGet {α β : Type} [DecidableEq α] (m : List (α × β)) (k : α) (d : β) : β :=
  match m.lookup k with
  | some v => v
  | none => d

/-- Go map write: replace the value at an existing key, else append the
new key. -/
def mapSet {α β : Type} [DecidableEq α] (m : List (α × β)) (k : α) (v : β) :
    List (α × β) :=
  match m with
  | [] => [(k, v)]
  | (k', v') :: rest =>
      if k' = k then (k, v) :: rest else (k', v') :: mapSet rest k v

/-- The `float64` values produced by the tracer: the zero-denominator
cases follow IEEE-754 exactly; a finite quotient is idealised as an
exact rational. -/
inductive GoFloat where
  | finite (q : ℚ)
  | inf
  | nan
deriving DecidableEq, Repr

/-- `float64(num) / float64(den) * 100` as computed in `analyzePatterns`. -/
def goPercent (num den : Nat) : GoFloat :=
  if den = 0 then (if num = 0 then .nan else .inf)
  else .finite ((num : ℚ) / (den : ℚ) * 100)

/-- A scalar value stored in an `Optimization.Details` map
(`map[string]interface{}` in Go).  `hex k` is the `Hex()` string
rendering of the hash/address whose numeric value is `k`, kept abstract
(it is injective). -/
inductive Scalar where
  | s (v : String)
  | n (v : Nat)
  | f (v : GoFloat)
  | hex (v : Nat)
deriving DecidableEq, Repr

/-- `Optimization` record (gas_tracer.go lines 71-78).  The Go `Details`
field is a `map[string]interface{}`; it is modelled as an association
list in the insertion order of the source literal. -/
structure Optimization where
  type : String
  severity : String
  description : String
  location : String
  gasSavings : Nat
  details : List (String × Scalar)
deriving DecidableEq, Repr

/-- `MemoryOperation` record (gas_tracer.go lines 37-43). -/
structure MemoryOperation where
  pc : Nat
  op : String
  size : Nat
  gas : Nat
  depth : Int
deriving DecidableEq, Repr

/-- `CallOperation` record (gas_tracer.go lines 45-54); the `Value`
big-int field is never assigned by the tracer and is omitted. -/
structure CallOperation where
  pc : Nat
  op : String
  toAddr : Nat
  gas : Nat
  gasUsed : Nat
  success : Bool
  depth : Int
deriving DecidableEq, Repr

/-- `ExpensiveOperation` record (gas_tracer.go lines 63-69). -/
structure ExpensiveOperation where
  pc : Nat
  op : String
  gas : Nat
  description : String
  depth : Int
deriving DecidableEq, Repr

/-- The opcodes the tracer's `switch` distinguishes; every other opcode
is `other mnem` with its mnemonic string. -/
inductive Op where
  | SLOAD | SSTORE | MLOAD | MSTORE | MSTORE8
  | CALL | STATICCALL | DELEGATECALL | CALLCODE
  | CREATE | CREATE2 | SELFDESTRUCT | JUMPDEST
  | LOG0 | LOG1 | LOG2 | LOG3 | LOG4 | KECCAK256
  | other (mnem : String)
deriving DecidableEq, Repr

/-- `op.String()`: the opcode's mnemonic. -/
def Op.str : Op → String
  | .SLOAD => "SLOAD"
  | .SSTORE => "SSTORE"
  | .MLOAD => "MLOAD"
  | .MSTORE => "MSTORE"
  | .MSTORE8 => "MSTORE8"
  | .CALL => "CALL"
  | .STATICCALL => "STATICCALL"
  | .DELEGATECALL => "DELEGATECALL"
  | .CALLCODE => "CALLCODE"
  | .CREATE => "CREATE"
  | .CREATE2 => "CREATE2"
  | .SELFDESTRUCT => "SELFDESTRUCT"
  | .JUMPDEST => "JUMPDEST"
  | .LOG0 => "LOG0"
  | .LOG1 => "LOG1"
  | .LOG2 => "LOG2"
  | .LOG3 => "LOG3"
  | .LOG4 => "LOG4"
  | .KECCAK256 => "KECCAK256"
  | .other mnem => mnem

/-- The mutable state of `GasOptimizationTracer` (gas_tracer.go lines
13-35).  The `Loops` list and the `Stack`/`Memory` mirrors are never
written by any handler and are omitted; the `sync.Mutex` serialises
handler bodies and has no effect on the sequential semantics. -/
structure Tracer where
  storageReads : List (Nat × Nat)
  storageWrites : List (Nat × Nat)
  memoryOps : List MemoryOperation
  callOps : List CallOperation
  expensiveOps : List ExpensiveOperation
  gasPerOpcode : List (String × Nat)
  pc : Nat
  gas : Nat
  depth : Int
  totalGasUsed : Nat
  optimizations : List Optimization
deriving DecidableEq, Repr

/-- `NewGasOptimizationTracer` (gas_tracer.go lines 83-95). -/
def newGasOptimizationTracer : Tracer :=
  { storageReads := [], storageWrites := [], memoryOps := [], callOps := [],
    expensiveOps := [], gasPerOpcode := [], pc := 0, gas := 0, depth := 0,
    totalGasUsed := 0, optimizations := [] }

/-- Big-endian byte decomposition of a natural number; `0` has no bytes,
matching `big.NewInt(0).Bytes()`. -/
def natBytes (n : Nat) : List Nat :=
  if h : n = 0 then []
  else natBytes (n / 256) ++ [n % 256]
termination_by n
decreasing_by exact Nat.div_lt_self (Nat.pos_of_ne_zero h) (by omega)

/-- One lowercase hex digit. -/
def hexDigit (n : Nat) : Char :=
  if n < 10 then Char.ofNat (48 + n) else Char.ofNat (87 + n)

/-- One byte as two lowercase hex digits (`hex.EncodeToString`). -/
def byteHex (b : Nat) : String :=
  String.mk [hexDigit (b / 16), hexDigit (b % 16)]

/-- `formatPC` (gas_tracer.go lines 366-368): `"0x"` followed by the
byte-wise hex of the program counter (`formatPC 0 = "0x"`,
`formatPC 256 = "0x0100"`). -/
def formatPC (pc : Nat) : String :=
  "0x" ++ String.join ((natBytes pc).map byteHex)

/-- The `redundant_sload` Optimization literal built at gas_tracer.go
lines 130-140, for read count `n` (Go evaluates
`(uint64(count) - 1) * 100` in `uint64` arithmetic). -/
def redundantSloadOpt (pc key n : Nat) : Optimization :=
  { type := "redundant_sload", severity := "high",
    description := "Multiple SLOAD operations for the same storage slot",
    location := formatPC pc,
    gasSavings := (n - 1) * 100 % UINT64,
    details := [("storage_key", .hex key), ("read_count", .n n)] }

/-- The `gas_forwarding` Optimization literal (gas_tracer.go lines
176-186). -/
def gasForwardingOpt (pc : Nat) (callType : String) (toAddr : Nat) : Optimization :=
  { type := "gas_forwarding", severity := "low",
    description := "Forwarding all available gas to external call",
    location := formatPC pc, gasSavings := 0,
    details := [("call_type", .s callType), ("to", .hex toAddr)] }

/-- The `memory_expansion` Optimization literal (gas_tracer.go lines
242-251). -/
def memoryExpansionOpt (pc memSize : Nat) : Optimization :=
  { type := "memory_expansion", severity := "medium",
    description := "Large memory expansion detected",
    location := formatPC pc, gasSavings := 0,
    details := [("memory_size", .n memSize)] }

/-- `CaptureState` (gas_tracer.go lines 107-254).  `stack` carries the
operand values visible to `scope.Stack.Back` (top first); `memSize` is
`len(scope.Memory.Data())`. -/
def captureState (t : Tracer) (pc : Nat) (op : Op) (gas cost : Nat)
    (stack : List Nat) (memSize : Nat) (depth : Int) : Tracer :=
  let t1 : Tracer :=
    { t with
      pc := pc, gas := gas, depth := depth
      totalGasUsed := (t.totalGasUsed + cost) % UINT64
      gasPerOpcode :=
        mapSet t.gasPerOpcode op.str
          ((mapGet t.gasPerOpcode op.str 0 + cost) % UINT64) }
  let t2 : Tracer :=
    match op with
    | .SLOAD =>
        match stack.get? 0 with
        | some key =>
            let n := mapGet t1.storageReads key 0 + 1
            let t' := { t1 with storageReads := mapSet t1.storageReads key n }
            if 2 < n then
              { t' with optimizations :=
                  t'.optimizations ++ [redundantSloadOpt pc key n] }
            else t'
        | none => t1
    | .SSTORE =>
        match stack.get? 0 with
        | some key =>
            { t1 with storageWrites :=
                mapSet t1.storageWrites key (mapGet t1.storageWrites key 0 + 1) }
        | none => t1
    | .MLOAD | .MSTORE | .MSTORE8 =>
        { t1 with memoryOps :=
            t1.memoryOps ++
              [{ pc := pc, op := op.str, size := memSize, gas := cost,
                 depth := depth }] }
    | .CALL | .STATICCALL | .DELEGATECALL | .CALLCODE =>
        let callOp0 : CallOperation :=
          { pc := pc, op := op.str, toAddr := 0, gas := gas, gasUsed := cost,
            success := false, depth := depth }
        match stack.get? 0, stack.get? 1 with
        | some gasLimit, some addr =>
            let callOp := { callOp0 with toAddr := addr % ADDR }
            let t' :=
              if gasLimit % UINT64 = gas - gas / 64 then
                { t1 with optimizations :=
                    t1.optimizations ++ [gasForwardingOpt pc op.str (addr % ADDR)] }
              else t1
            { t' with callOps := t'.callOps ++ [callOp] }
        | _, _ => { t1 with callOps := t1.callOps ++ [callOp0] }
    | .CREATE | .CREATE2 =>
        { t1 with expensiveOps :=
            t1.expensiveOps ++
              [{ pc := pc, op := op.str, gas := cost,
                 description := "Contract creation is expensive",
                 depth := depth }] }
    | .SELFDESTRUCT =>
        { t1 with expensiveOps :=
            t1.expensiveOps ++
              [{ pc := pc, op := op.str, gas := cost,
                 description := "SELFDESTRUCT is very expensive",
                 depth := depth }] }
    | .JUMPDEST => t1
    | .LOG0 | .LOG1 | .LOG2 | .LOG3 | .LOG4 =>
        if 1000 < cost then
          { t1 with expensiveOps :=
              t1.expensiveOps ++
                [{ pc := pc, op := op.str, gas := cost,
                   description := "Large LOG operation", depth := depth }] }
        else t1
    | .KECCAK256 =>
        if 500 < cost then
          { t1 with expensiveOps :=
              t1.expensiveOps ++
                [{ pc := pc, op := op.str, gas := cost,
                   description := "Expensive KECCAK256 operation",
                   depth := depth }] }
        else t1
    | .other _ => t1
  if 0 < memSize then
    if 10000 < memSize then
      { t2 with optimizations :=
          t2.optimizations ++ [memoryExpansionOpt pc memSize] }
    else t2
  else t2

/-- `CaptureStart` (gas_tracer.go lines 98-104). -/
def captureStart (t : Tracer) (gas : Nat) : Tracer :=
  { t with gas := gas, depth := 0 }

/-- `CaptureEnter` (gas_tracer.go lines 257-262). -/
def captureEnter (t : Tracer) : Tracer :=
  { t with depth := t.depth + 1 }

/-- `CaptureExit` (gas_tracer.go lines 265-271). -/
def captureExit (t : Tracer) (gasUsed : Nat) : Tracer :=
  { t with
    depth := t.depth - 1
    totalGasUsed := (t.totalGasUsed + gasUsed) % UINT64 }

/-- The `expensive_opcode` ("hot opcode") Optimization literal
(gas_tracer.go lines 304-315). -/
def hotOpcodeOpt (opcode : String) (gasUsed total : Nat) : Optimization :=
  { type := "expensive_opcode", severity := "medium",
    description := "Opcode consumes significant gas",
    location := "multiple", gasSavings := 0,
    details := [("opcode", .s opcode), ("gas_used", .n gasUsed),
                ("percentage", .f (goPercent gasUsed total))] }

/-- The hot-opcode Findings produced by the `range` loop of
`analyzePatterns` when the map is iterated in the order `entries`. -/
def hotOpcodeOpts (entries : List (String × Nat)) (total : Nat) :
    List Optimization :=
  entries.filterMap fun e =>
    if total / 10 < e.2 then some (hotOpcodeOpt e.1 e.2 total) else none

/-- The `multiple_calls` ("batch calls") Optimization literal
(gas_tracer.go lines 321-330). -/
def multipleCallsOpt (callCount : Nat) : Optimization :=
  { type := "multiple_calls", severity := "medium",
    description := "Multiple external calls detected - consider batching",
    location := "multiple",
    gasSavings := callCount * 2100 % UINT64,
    details := [("call_count", .n callCount)] }

/-- `analyzePatterns` (gas_tracer.go lines 300-332), parameterised by
the iteration order of the `GasPerOpcode` map (Go leaves it
unspecified). -/
def analyzePatternsWith (order : List (String × Nat)) (t : Tracer) : Tracer :=
  let t1 := { t with optimizations :=
                t.optimizations ++ hotOpcodeOpts order t.totalGasUsed }
  if 5 < t1.callOps.length then
    { t1 with optimizations :=
        t1.optimizations ++ [multipleCallsOpt t1.callOps.length] }
  else t1

/-- `analyzePatterns` with the canonical (insertion-order) iteration of
the map. -/
def analyzePatterns (t : Tracer) : Tracer :=
  analyzePatternsWith t.gasPerOpcode t

/-- `CaptureEnd` (gas_tracer.go lines 279-287): overwrite
`TotalGasUsed` with the supplied value, then run the terminal pass. -/
def captureEnd (t : Tracer) (gasUsed : Nat) : Tracer :=
  analyzePatterns { t with totalGasUsed := gasUsed }

/-- `CaptureTxStart` (gas_tracer.go lines 290-292). -/
def captureTxStart (t : Tracer) (gasLimit : Nat) : Tracer :=
  { t with gas := gasLimit }

/-- `CaptureFault` (lines 274-276) and `CaptureTxEnd` (lines 295-297)
have empty bodies. -/
def captureFault (t : Tracer) : Tracer := t

/-- One event of the Driver's callback stream, tagged with the handler
it invokes. -/
inductive Event where
  | txStart (gasLimit : Nat)
  | start (gas : Nat)
  | step (pc : Nat) (op : Op) (gas cost : Nat) (stack : List Nat)
      (memSize : Nat) (depth : Int)
  | enter
  | exit (gasUsed : Nat)
  | fault
  | txEnd (gasUsed : Nat)
deriving DecidableEq, Repr

/-- Dispatch one event to its handler (`txEnd` is the `CaptureEnd`
callback). -/
def applyEvent (t : Tracer) : Event → Tracer
  | .txStart g => captureTxStart t g
  | .start g => captureStart t g
  | .step pc op gas cost stack memSize depth =>
      captureState t pc op gas cost stack memSize depth
  | .enter => captureEnter t
  | .exit g => captureExit t g
  | .fault => captureFault t
  | .txEnd g => captureEnd t g

/-- Run a whole event sequence from a starting state. -/
def runEvents (events : List Event) (t : Tracer) : Tracer :=
  events.foldl applyEvent t

/-- A detail value `encoding/json` cannot encode: a non-finite
`float64` (`+Inf` or `NaN`). -/
def Scalar.nonFinite : Scalar → Bool
  | .f .inf => true
  | .f .nan => true
  | _ => false

/-- Whether an Optimization holds a detail value that `json.Marshal`
rejects. -/
def Optimization.hasNonFinite (o : Optimization) : Bool :=
  o.details.any fun d => d.2.nonFinite

/-- A top-level value of the report object built by `GetReport`. -/
inductive ReportVal where
  | n (v : Nat)
  | opts (v : List Optimization)
  | gasMap (v : List (String × Nat))
deriving DecidableEq, Repr

/-- Byte-wise lexicographic order on character lists; on the ASCII keys
of this report it coincides with the byte order in which
`encoding/json` sorts a Go map's keys. -/
def charListLt : List Char → List Char → Bool
  | _, [] => false
  | [], _ :: _ => true
  | c :: cs, d :: ds =>
      if c.toNat < d.toNat then true
      else if d.toNat < c.toNat then false
      else charListLt cs ds

/-- Byte-wise lexicographic order on strings (`encoding/json` key
order). -/
def strLt (a b : String) : Bool := charListLt a.toList b.toList

/-- Insert one pair into a key-sorted association list (ascending
string order). -/
def insertByKey {β : Type} (p : String × β) :
    List (String × β) → List (String × β)
  | [] => [p]
  | q :: rest => if strLt p.1 q.1 then p :: q :: rest else q :: insertByKey p rest

/-- Sort an association list by key, the order in which
`encoding/json` emits the keys of a Go map. -/
def sortByKey {β : Type} : List (String × β) → List (String × β)
  | [] => []
  | p :: rest => insertByKey p (sortByKey rest)

/-- The report object built by `GetReport` (gas_tracer.go lines
347-356), listed in the order of the Go composite literal; the literal
populates a `map[string]interface{}`, so this order is not observable
in the output. -/
def reportRaw (t : Tracer) : List (String × ReportVal) :=
  [("total_gas_used", .n t.totalGasUsed),
   ("storage_reads", .n t.storageReads.length),
   ("storage_writes", .n t.storageWrites.length),
   ("memory_operations", .n t.memoryOps.length),
   ("call_operations", .n t.callOps.length),
   ("expensive_ops", .n t.expensiveOps.length),
   ("optimizations", .opts t.optimizations),
   ("gas_by_opcode", .gasMap (sortByKey t.gasPerOpcode))]

/-- `GetReport` (gas_tracer.go lines 343-364): `json.MarshalIndent`
emits each object's keys in ascending order and fails exactly when some
marshalled value is a non-finite `float64` (in this data only an
`Optimization` detail value can be one); on failure `GetReport`
returns the error. -/
def getReport (t : Tracer) : Except String (List (String × ReportVal)) :=
  if t.optimizations.any Optimization.hasNonFinite then
    .error "json: unsupported value"
  else
    .ok (sortByKey (reportRaw t))

/-!  Helper lemmas shared by the claim theorems below. -/

theorem mapGet_mapSet_self {α β : Type} [DecidableEq α] (m : List (α × β))
    (k : α) (v d : β) : mapGet (mapSet m k v) k d = v := by
  induction m with
  | nil => simp [mapGet, mapSet, List.lookup]
  | cons p rest ih =>
      obtain ⟨k', v'⟩ := p
      by_cases h : k' = k
      · subst h
        simp [mapGet, mapSet, List.lookup]
      · have hb : (k == k') = false := beq_eq_false_iff_ne.mpr (Ne.symm h)
        simp only [mapGet, mapSet, List.lookup, h, hb, if_false]
        exact ih

theorem runEvents_append (l1 l2 : List Event) (t : Tracer) :
    runEvents (l1 ++ l2) t = runEvents l2 (runEvents l1 t) := by
  simp [runEvents, List.foldl_append]

theorem captureState_totalGasUsed (t : Tracer) (pc : Nat) (op : Op)
    (gas cost : Nat) (stack : List Nat) (memSize : Nat) (depth : Int) :
    (captureState t pc op gas cost stack memSize depth).totalGasUsed =
      (t.totalGasUsed + cost) % UINT64 := by
  cases op <;>
    simp only [captureState] <;>
    (try cases stack.get? 0) <;>
    (try cases stack.get? 1) <;>
    (repeat' split) <;>
    rfl

theorem captureState_sload (t : Tracer) (pc gas cost key mem : Nat) (d : Int) :
    (captureState t pc .SLOAD gas cost [key] mem d).storageReads =
        mapSet t.storageReads key (mapGet t.storageReads key 0 + 1) ∧
    (captureState t pc .SLOAD gas cost [key] mem d).optimizations =
        t.optimizations ++
          (if 2 < mapGet t.storageReads key 0 + 1 then
            [redundantSloadOpt pc key (mapGet t.storageReads key 0 + 1)]
          else []) ++
          (if 0 < mem then
            if 10000 < mem then [memoryExpansionOpt pc mem] else []
          else []) := by
  constructor <;>
    simp only [captureState] <;>
    (repeat' split) <;>
    simp_all <;>
    omega

theorem analyzePatternsWith_opts (order : List (String × Nat)) (t : Tracer) :
    (analyzePatternsWith order t).optimizations =
      t.optimizations ++ hotOpcodeOpts order t.totalGasUsed ++
        (if 5 < t.callOps.length then [multipleCallsOpt t.callOps.length]
         else []) := by
  simp only [analyzePatternsWith]
  split <;> simp

theorem captureEnd_totalGasUsed (t : Tracer) (g : Nat) :
    (captureEnd t g).totalGasUsed = g := by
  simp only [captureEnd, analyzePatterns, analyzePatternsWith]
  split <;> rfl

theorem captureEnd_depth (t : Tracer) (g : Nat) :
    (captureEnd t g).depth = t.depth := by
  simp only [captureEnd, analyzePatterns, analyzePatternsWith]
  split <;> rfl

theorem range_map_red_succ (pc key n : Nat) :
    (List.range (n + 1 - 2)).map (fun i => redundantSloadOpt pc key (i + 3)) =
      (List.range (n - 2)).map (fun i => redundantSloadOpt pc key (i + 3)) ++
        (if 2 < n + 1 then [redundantSloadOpt pc key (n + 1)] else []) := by
  by_cases h : 2 ≤ n
  · have h1 : n + 1 - 2 = (n - 2) + 1 := by omega
    rw [h1, List.range_succ, List.map_append]
    simp only [List.map_cons, List.map_nil]
    have h2 : n - 2 + 3 = n + 1 := by omega
    rw [h2, if_pos (by omega)]
  · have h1 : n + 1 - 2 = 0 := by omega
    have h2 : n - 2 = 0 := by omega
    rw [h1, h2, if_neg (by omega)]
    simp

theorem runSloads_spec (pc gas cost mem key : Nat) (d : Int) (n : Nat) :
    mapGet (runEvents (List.replicate n (Event.step pc Op.SLOAD gas cost [key] mem d))
        newGasOptimizationTracer).storageReads key 0 = n ∧
    ((runEvents (List.replicate n (Event.step pc Op.SLOAD gas cost [key] mem d))
        newGasOptimizationTracer).optimizations.filter
        (fun o => o.type == "redundant_sload")) =
      (List.range (n - 2)).map (fun i => redundantSloadOpt pc key (i + 3)) := by
  induction n with
  | zero => exact ⟨rfl, rfl⟩
  | succ n ih =>
      obtain ⟨ih1, ih2⟩ := ih
      rw [List.replicate_succ', runEvents_append]
      have hrun : runEvents [Event.step pc Op.SLOAD gas cost [key] mem d]
          (runEvents (List.replicate n (Event.step pc Op.SLOAD gas cost [key] mem d))
            newGasOptimizationTracer) =
          captureState (runEvents (List.replicate n
              (Event.step pc Op.SLOAD gas cost [key] mem d))
            newGasOptimizationTracer) pc .SLOAD gas cost [key] mem d := rfl
      rw [hrun]
      obtain ⟨hs, ho⟩ := captureState_sload (runEvents (List.replicate n
          (Event.step pc Op.SLOAD gas cost [key] mem d))
        newGasOptimizationTracer) pc gas cost key mem d
      constructor
      · rw [hs, ih1, mapGet_mapSet_self]
      · rw [ho, ih1, List.filter_append, List.filter_append, ih2]
        have hif1 : List.filter (fun o => o.type == "redundant_sload")
            (if 2 < n + 1 then [redundantSloadOpt pc key (n + 1)] else []) =
            (if 2 < n + 1 then [redundantSloadOpt pc key (n + 1)] else []) := by
          split <;> simp [redundantSloadOpt]
        have hif2 : List.filter (fun o => o.type == "redundant_sload")
            (if 0 < mem then
              if 10000 < mem then [memoryExpansionOpt pc mem] else []
            else []) = ([] : List Optimization) := by
          split
          · split
            · simp [memoryExpansionOpt]
            · rfl
          · rfl
        rw [hif1, hif2, List.append_nil, range_map_red_succ]

theorem mem_hotOpcodeOpts_type {order : List (String × Nat)} {total : Nat}
    {o : Optimization} (h : o ∈ hotOpcodeOpts order total) :
    o.type = "expensive_opcode" := by
  simp only [hotOpcodeOpts, List.mem_filterMap] at h
  obtain ⟨e, _, he⟩ := h
  split at he
  · cases he
    rfl
  · cases he

theorem hotOpcodeOpts_filter_mc (order : List (String × Nat)) (total : Nat) :
    (hotOpcodeOpts order total).filter (fun o => o.type == "multiple_calls") =
      [] := by
  rw [List.filter_eq_nil_iff]
  intro o ho
  have h := mem_hotOpcodeOpts_type ho
  simp [h]

/-- Insertion into a sorted list of strings (the key image of
`insertByKey`). -/
def insertStr (x : String) : List String → List String
  | [] => [x]
  | y :: rest => if strLt x y then x :: y :: rest else y :: insertStr x rest

/-- Insertion sort on strings (the key image of `sortByKey`). -/
def sortStr : List String → List String
  | [] => []
  | x :: rest => insertStr x (sortStr rest)

theorem map_fst_insertByKey {β : Type} (p : String × β) (l : List (String × β)) :
    (insertByKey p l).map Prod.fst = insertStr p.1 (l.map Prod.fst) := by
  induction l with
  | nil => rfl
  | cons q rest ih =>
      simp only [insertByKey, insertStr, List.map_cons]
      split
      · simp
      · simp [ih]

theorem map_fst_sortByKey {β : Type} (l : List (String × β)) :
    (sortByKey l).map Prod.fst = sortStr (l.map Prod.fst) := by
  induction l with
  | nil => rfl
  | cons p rest ih => simp [sortByKey, sortStr, map_fst_insertByKey, ih]

/-!  Claim theorems.  Each theorem below settles one claim of the
specification against the embedded code. -/

/-- Claim C1: for a trace of `n` SLOAD Steps on the same slot with the
slot operand present, the read counter equals `n` after the `n`-th
read; a high-severity `redundant_sload` Finding is emitted on every
read with count above 2 (never retroactively), in event order, and the
Finding for count `m` carries savings `(m - 1) * 100`; a slot read
twice yields no such Finding, read three times exactly one with
savings 200. -/
theorem redundant_sload_counting (pc gas cost mem key n : Nat) (d : Int) :
    mapGet (runEvents (List.replicate n (Event.step pc Op.SLOAD gas cost [key] mem d))
        newGasOptimizationTracer).storageReads key 0 = n ∧
    ((runEvents (List.replicate n (Event.step pc Op.SLOAD gas cost [key] mem d))
        newGasOptimizationTracer).optimizations.filter
        (fun o => o.type == "redundant_sload")) =
      (List.range (n - 2)).map (fun i => redundantSloadOpt pc key (i + 3)) ∧
    ((runEvents (List.replicate 2 (Event.step pc Op.SLOAD gas cost [key] mem d))
        newGasOptimizationTracer).optimizations.filter
        (fun o => o.type == "redundant_sload")) = [] ∧
    ((runEvents (List.replicate 3 (Event.step pc Op.SLOAD gas cost [key] mem d))
        newGasOptimizationTracer).optimizations.filter
        (fun o => o.type == "redundant_sload")) = [redundantSloadOpt pc key 3] ∧
    (redundantSloadOpt pc key 3).gasSavings = 200 ∧
    (redundantSloadOpt pc key 3).severity = "high" ∧
    (∀ m : Nat, (redundantSloadOpt pc key m).gasSavings = (m - 1) * 100 % UINT64) := by
  refine ⟨(runSloads_spec pc gas cost mem key d n).1,
    (runSloads_spec pc gas cost mem key d n).2, ?_, ?_, rfl, rfl, fun m => rfl⟩
  · simpa using (runSloads_spec pc gas cost mem key d 2).2
  · simpa [List.range_succ] using (runSloads_spec pc gas cost mem key d 3).2

/-- Claim C2, counterexample: the claim that events delivered after
CaptureEnd are rejected or ignored is false — a Step delivered after
CaptureEnd changes the running aggregates (total gas moves from the
overwritten 100 to 105). -/
theorem late_events_processed_cex :
    (runEvents [Event.txEnd 100] newGasOptimizationTracer).totalGasUsed = 100 ∧
    (runEvents [Event.txEnd 100, Event.step 0 (Op.other "ADD") 1000 5 [] 0 0]
        newGasOptimizationTracer).totalGasUsed = 105 ∧
    runEvents [Event.txEnd 100, Event.step 0 (Op.other "ADD") 1000 5 [] 0 0]
        newGasOptimizationTracer ≠
      runEvents [Event.txEnd 100] newGasOptimizationTracer := by
  refine ⟨by decide, by decide, by decide⟩

/-- Claim C2, amended: the tracer has no Ended guard — Step, Enter and
Exit handlers invoked after CaptureEnd mutate the state exactly as
before it (a late Step adds its cost to the overwritten total, a late
Enter/Exit moves the depth). -/
theorem late_events_processed (t : Tracer) (g pc gas cost mem : Nat)
    (op : Op) (stack : List Nat) (d : Int) (e : Nat) :
    (captureState (captureEnd t g) pc op gas cost stack mem d).totalGasUsed =
      (g + cost) % UINT64 ∧
    (captureEnter (captureEnd t g)).depth = (captureEnd t g).depth + 1 ∧
    (captureExit (captureEnd t g) e).totalGasUsed = (g + e) % UINT64 := by
  refine ⟨?_, rfl, ?_⟩
  · rw [captureState_totalGasUsed, captureEnd_totalGasUsed]
  · show ((captureEnd t g).totalGasUsed + e) % UINT64 = (g + e) % UINT64
    rw [captureEnd_totalGasUsed]

/-- Claim C3, counterexample: an unmatched Exit on the fresh tracer
drives the depth to -1, so depth is not clamped at zero. -/
theorem unmatched_exit_negative_depth_cex :
    (captureExit newGasOptimizationTracer 0).depth = -1 ∧
    ¬(0 ≤ (captureExit newGasOptimizationTracer 0).depth) := by decide

/-- Claim C3, amended: the depth is decremented exactly once per Exit
(and incremented once per Enter), with no lower bound — an unmatched
Exit drives it negative rather than clamping at zero. -/
theorem exit_decrements_depth (t : Tracer) (g : Nat) :
    (captureExit t g).depth = t.depth - 1 ∧
    (captureEnter t).depth = t.depth + 1 := ⟨rfl, rfl⟩

/-- Claim C4, counterexample: with total usage zero and one opcode of
positive usage, the terminal pass emits a hot-opcode Finding — the
Finding is not suppressed as the claim states. -/
theorem zero_total_hot_finding_cex :
    (captureEnd { newGasOptimizationTracer with
        gasPerOpcode := [("ADD", 5)] } 0).optimizations ≠ [] := by decide

/-- Claim C4, amended: with total usage zero the terminal pass raises
no error, but there is no explicit guard — the integer threshold
`total / 10` is 0, so a hot-opcode Finding is emitted for exactly the
opcodes with positive usage, carrying the non-finite percentage `+Inf`;
hot-opcode Findings are absent only when every opcode's usage is
zero. -/
theorem zero_total_hot_opcode_behavior (entries : List (String × Nat))
    (s : String) (u : Nat) :
    hotOpcodeOpts entries 0 =
      entries.filterMap
        (fun e => if 0 < e.2 then some (hotOpcodeOpt e.1 e.2 0) else none) ∧
    (hotOpcodeOpt s (u + 1) 0).details =
      [("opcode", .s s), ("gas_used", .n (u + 1)), ("percentage", .f .inf)] ∧
    hotOpcodeOpts (entries.map (fun e => (e.1, 0))) 0 = [] := by
  refine ⟨?_, ?_, ?_⟩
  · simp [hotOpcodeOpts]
  · simp [hotOpcodeOpt, goPercent]
  · simp [hotOpcodeOpts, List.filterMap_map, Function.comp]

/-- Claim C5: the cumulative total is incremented by the cost on every
Step and by the reported usage on every Exit, and CaptureEnd overwrites
it with the supplied value before the terminal pass runs — so after any
trace ending in CaptureEnd the total equals exactly the supplied
value. -/
theorem total_gas_accrual_and_overwrite (t : Tracer) (pc : Nat) (op : Op)
    (gas cost : Nat) (stack : List Nat) (mem : Nat) (d : Int)
    (g : Nat) (events : List Event) :
    (captureState t pc op gas cost stack mem d).totalGasUsed =
      (t.totalGasUsed + cost) % UINT64 ∧
    (captureExit t g).totalGasUsed = (t.totalGasUsed + g) % UINT64 ∧
    (captureEnd t g).totalGasUsed = g ∧
    (runEvents (events ++ [Event.txEnd g]) newGasOptimizationTracer).totalGasUsed
      = g := by
  refine ⟨captureState_totalGasUsed t pc op gas cost stack mem d, rfl,
    captureEnd_totalGasUsed t g, ?_⟩
  rw [runEvents_append]
  exact captureEnd_totalGasUsed (runEvents events newGasOptimizationTracer) g

/-- Claim C6: the terminal pass emits exactly one medium-severity
`multiple_calls` Finding iff the recorded CallOperations exceed 5, with
detail `call_count` equal to that number and savings
`call_count * 2100`; six external-call Steps then CaptureEnd yield the
Finding with call_count 6 and savings 12600, five yield none. -/
theorem batch_calls_finding (t : Tracer) (order : List (String × Nat)) :
    ((analyzePatternsWith order t).optimizations.filter
        (fun o => o.type == "multiple_calls")) =
      t.optimizations.filter (fun o => o.type == "multiple_calls") ++
        (if 5 < t.callOps.length then [multipleCallsOpt t.callOps.length]
         else []) ∧
    (multipleCallsOpt 6).gasSavings = 12600 ∧
    (multipleCallsOpt 6).details = [("call_count", .n 6)] ∧
    (multipleCallsOpt 6).severity = "medium" ∧
    ((runEvents (List.replicate 6 (Event.step 0 Op.CALL 0 0 [] 0 0) ++
          [Event.txEnd 0]) newGasOptimizationTracer).optimizations.filter
        (fun o => o.type == "multiple_calls")) = [multipleCallsOpt 6] ∧
    ((runEvents (List.replicate 5 (Event.step 0 Op.CALL 0 0 [] 0 0) ++
          [Event.txEnd 0]) newGasOptimizationTracer).optimizations.filter
        (fun o => o.type == "multiple_calls")) = [] := by
  refine ⟨?_, by decide, by decide, by decide, by decide, by decide⟩
  rw [analyzePatternsWith_opts, List.filter_append, List.filter_append,
    hotOpcodeOpts_filter_mc, List.append_nil]
  congr 1
  split <;> simp [multipleCallsOpt]

/-- Claim C7, counterexample: two legitimate iteration orders of the
same opcode-usage map (both permutations of it) give different Findings
lists, so the hot-opcode segment's order is not deterministic across
runs. -/
theorem findings_order_not_deterministic_cex :
    [(("ADD":String), (50:Nat)), ("MUL", 50)].Perm
      ({ newGasOptimizationTracer with
          gasPerOpcode := [("ADD", 50), ("MUL", 50)],
          totalGasUsed := 100 } : Tracer).gasPerOpcode ∧
    [(("MUL":String), (50:Nat)), ("ADD", 50)].Perm
      ({ newGasOptimizationTracer with
          gasPerOpcode := [("ADD", 50), ("MUL", 50)],
          totalGasUsed := 100 } : Tracer).gasPerOpcode ∧
    (analyzePatternsWith [("ADD", 50), ("MUL", 50)]
        { newGasOptimizationTracer with
          gasPerOpcode := [("ADD", 50), ("MUL", 50)],
          totalGasUsed := 100 }).optimizations ≠
      (analyzePatternsWith [("MUL", 50), ("ADD", 50)]
        { newGasOptimizationTracer with
          gasPerOpcode := [("ADD", 50), ("MUL", 50)],
          totalGasUsed := 100 }).optimizations := by
  refine ⟨List.Perm.refl _, List.Perm.swap _ _ _, by decide⟩

/-- Claim C7, amended: the final Findings list keeps all streaming
Findings first in event order, then the hot-opcode Findings in the map
iteration order used by that run (unspecified, so not deterministic
across runs), then the batch-call Finding last when triggered. -/
theorem findings_order_structure (t : Tracer) (order : List (String × Nat)) :
    (analyzePatternsWith order t).optimizations =
      t.optimizations ++ hotOpcodeOpts order t.totalGasUsed ++
        (if 5 < t.callOps.length then [multipleCallsOpt t.callOps.length]
         else []) ∧
    hotOpcodeOpts order t.totalGasUsed =
      order.filterMap (fun e =>
        if t.totalGasUsed / 10 < e.2 then
          some (hotOpcodeOpt e.1 e.2 t.totalGasUsed)
        else none) :=
  ⟨analyzePatternsWith_opts order t, rfl⟩

/-- Claim C8, counterexample: the serialized report's top-level fields
are not in the interface order (total usage first, gas_by_opcode
last). -/
theorem report_field_order_cex :
    (sortByKey (reportRaw newGasOptimizationTracer)).map Prod.fst ≠
      ["total_gas_used", "storage_reads", "storage_writes", "memory_operations",
       "call_operations", "expensive_ops", "optimizations", "gas_by_opcode"] := by
  decide

/-- Claim C8, amended: serialization is deterministic, but `json.Marshal`
emits the report's top-level keys in ascending lexicographic order —
call_operations, expensive_ops, gas_by_opcode, memory_operations,
optimizations, storage_reads, storage_writes, total_gas_used — for
every tracer state; GetReport either fails (non-finite detail value) or
returns exactly this key-sorted document. -/
theorem report_field_order_lexicographic (t : Tracer) :
    (sortByKey (reportRaw t)).map Prod.fst =
      ["call_operations", "expensive_ops", "gas_by_opcode", "memory_operations",
       "optimizations", "storage_reads", "storage_writes", "total_gas_used"] ∧
    (getReport t = .error "json: unsupported value" ∨
      getReport t = .ok (sortByKey (reportRaw t))) := by
  constructor
  · rw [map_fst_sortByKey]
    simp only [reportRaw, List.map_cons, List.map_nil]
    decide
  · by_cases h : t.optimizations.any Optimization.hasNonFinite = true
    · left
      simp [getReport, h]
    · right
      simp [getReport, h]

/-- Claim C9: a Step whose expected stack operands are missing skips
that instruction's category-specific analysis silently — no
storage-read or storage-write counter moves, no Finding is emitted —
while an external-call Step still appends its CallOperation (with the
zero-value callee) and the handler continues (the cost still accrues to
the total). -/
theorem missing_operands_skip (t : Tracer) (pc gas cost mem : Nat) (d : Int)
    (h : mem ≤ 10000) :
    (captureState t pc .SLOAD gas cost [] mem d).storageReads = t.storageReads ∧
    (captureState t pc .SLOAD gas cost [] mem d).optimizations = t.optimizations ∧
    (captureState t pc .SSTORE gas cost [] mem d).storageWrites = t.storageWrites ∧
    (captureState t pc .SSTORE gas cost [] mem d).optimizations = t.optimizations ∧
    (captureState t pc .CALL gas cost [] mem d).optimizations = t.optimizations ∧
    (captureState t pc .CALL gas cost [] mem d).callOps =
      t.callOps ++ [{ pc := pc, op := "CALL", toAddr := 0, gas := gas,
                      gasUsed := cost, success := false, depth := d }] ∧
    (captureState t pc .CALL gas cost [] mem d).totalGasUsed =
      (t.totalGasUsed + cost) % UINT64 := by
  have hmem : ¬(10000 < mem) := by omega
  refine ⟨?_, ?_, ?_, ?_, ?_, ?_,
    captureState_totalGasUsed t pc .CALL gas cost [] mem d⟩ <;>
    · simp only [captureState]
      (repeat' split) <;> simp_all [Op.str]

/-- Claim C9, witness: the theorem applied at the fresh tracer with a
zero-cost Step of each kind and an empty operand stack. -/
theorem missing_operands_skip_witness :
    (0:Nat) ≤ 10000 ∧
    ((captureState newGasOptimizationTracer 0 .SLOAD 0 0 [] 0 0).storageReads =
        newGasOptimizationTracer.storageReads ∧
     (captureState newGasOptimizationTracer 0 .SLOAD 0 0 [] 0 0).optimizations =
        newGasOptimizationTracer.optimizations ∧
     (captureState newGasOptimizationTracer 0 .SSTORE 0 0 [] 0 0).storageWrites =
        newGasOptimizationTracer.storageWrites ∧
     (captureState newGasOptimizationTracer 0 .SSTORE 0 0 [] 0 0).optimizations =
        newGasOptimizationTracer.optimizations ∧
     (captureState newGasOptimizationTracer 0 .CALL 0 0 [] 0 0).optimizations =
        newGasOptimizationTracer.optimizations ∧
     (captureState newGasOptimizationTracer 0 .CALL 0 0 [] 0 0).callOps =
        newGasOptimizationTracer.callOps ++
          [{ pc := 0, op := "CALL", toAddr := 0, gas := 0, gasUsed := 0,
             success := false, depth := 0 }] ∧
     (captureState newGasOptimizationTracer 0 .CALL 0 0 [] 0 0).totalGasUsed =
       (newGasOptimizationTracer.totalGasUsed + 0) % UINT64) :=
  ⟨by decide, missing_operands_skip newGasOptimizationTracer 0 0 0 0 0 (by decide)⟩

/-- Claim C10: if the terminal pass runs with total usage zero while
some mnemonic has positive cumulative usage, the emitted hot-opcode
Finding carries the non-finite percentage `+Inf`, and every subsequent
GetReport on that state returns a serialization error instead of a
report. -/
theorem zero_total_inf_percentage_report_error (t : Tracer) (s : String)
    (u : Nat) (hmem : (s, u) ∈ t.gasPerOpcode) (hu : 0 < u) :
    hotOpcodeOpt s u 0 ∈ (captureEnd t 0).optimizations ∧
    ("percentage", Scalar.f .inf) ∈ (hotOpcodeOpt s u 0).details ∧
    getReport (captureEnd t 0) = .error "json: unsupported value" := by
  have hu0 : u ≠ 0 := Nat.pos_iff_ne_zero.mp hu
  have hperc : goPercent u 0 = .inf := by simp [goPercent, hu0]
  have hin : hotOpcodeOpt s u 0 ∈ hotOpcodeOpts t.gasPerOpcode 0 := by
    simp only [hotOpcodeOpts, List.mem_filterMap]
    refine ⟨(s, u), hmem, ?_⟩
    simp [hu]
  have hopt : hotOpcodeOpt s u 0 ∈ (captureEnd t 0).optimizations := by
    have hc : captureEnd t 0 =
        analyzePatternsWith ({ t with totalGasUsed := 0 } : Tracer).gasPerOpcode
          { t with totalGasUsed := 0 } := rfl
    rw [hc, analyzePatternsWith_opts]
    simp only [List.mem_append]
    exact Or.inl (Or.inr hin)
  refine ⟨hopt, ?_, ?_⟩
  · simp [hotOpcodeOpt, hperc]
  · have hnf : Optimization.hasNonFinite (hotOpcodeOpt s u 0) = true := by
      simp [Optimization.hasNonFinite, hotOpcodeOpt, hperc, Scalar.nonFinite]
    have hany : (captureEnd t 0).optimizations.any Optimization.hasNonFinite
        = true := by
      rw [List.any_eq_true]
      exact ⟨_, hopt, hnf⟩
    simp [getReport, hany]

/-- Claim C10, witness: the theorem applied at a state with 5 gas
accrued to ADD and total usage overwritten to zero. -/
theorem zero_total_inf_percentage_report_error_witness :
    (("ADD", (5:Nat)) ∈ ({ newGasOptimizationTracer with
        gasPerOpcode := [("ADD", 5)] } : Tracer).gasPerOpcode) ∧ (0:Nat) < 5 ∧
    (hotOpcodeOpt "ADD" 5 0 ∈
        (captureEnd { newGasOptimizationTracer with
          gasPerOpcode := [("ADD", 5)] } 0).optimizations ∧
      ("percentage", Scalar.f .inf) ∈ (hotOpcodeOpt "ADD" 5 0).details ∧
      getReport (captureEnd { newGasOptimizationTracer with
          gasPerOpcode := [("ADD", 5)] } 0) = .error "json: unsupported value") :=
  ⟨by decide, by decide,
    zero_total_inf_percentage_report_error _ "ADD" 5 (by decide) (by decide)⟩

end EvmTracer
